import Mathlib

/-!
Verification development for the embedding-store / similarity-index /
query-façade contract of this repository, together with the notebook code
for query normalization and the frozen-encoder fine-tuning loop.

The retrieval core (Embedding Store, Similarity Index, Query Façade) is
described by the specification but its implementation is not part of the
repository sources (the notebooks only call an external flat inner-product
index); its operations are therefore modelled from the spec.  Scores and
vector components are modelled as exact rationals so that every operation
is executable and decidable.
-/

deriving instance DecidableEq for Except

/-- Modelled from the spec: the error taxonomy of §7 (the retrieval core is
not implemented in the repository sources; only the errors exercised by the
store/index contracts are needed). -/
inductive VSError where
  | dimensionMismatch
  | duplicateId
  | notFound
  | emptyIndex
deriving DecidableEq

/-- Modelled from the spec: a Record pairs an Embedding (ordered sequence of
numbers, here exact rationals) with an integer identifier and opaque
metadata (§3). -/
structure Record where
  id : Nat
  emb : List ℚ
  meta : String
deriving DecidableEq

/-- Modelled from the spec: the Embedding Store, a mapping from identifier
to Record with a fixed dimension D per store instance (§3).  Records are
kept in insertion order. -/
structure Store where
  dim : Nat
  records : List Record
deriving DecidableEq

/-- Modelled from the spec: `size() -> integer`, the current record
count (§4.1). -/
def Store.size (s : Store) : Nat := s.records.length

/-- Modelled from the spec: `insert(id, embedding, metadata)` fails with
`DimensionMismatch` if `len(embedding) != D`; fails with `DuplicateId` if
`id` already present; otherwise appends the new record (§4.1, checks in the
order the contract lists them). -/
def Store.insert (s : Store) (id : Nat) (e : List ℚ) (m : String) :
    Except VSError Store :=
  if e.length = s.dim then
    if s.records.any (fun r => r.id == id) then
      Except.error VSError.duplicateId
    else
      Except.ok { s with records := s.records ++ [⟨id, e, m⟩] }
  else
    Except.error VSError.dimensionMismatch

/-- Modelled from the spec: `get(id) -> Record`, failing with `NotFound`
if absent (§4.1). -/
def Store.get (s : Store) (id : Nat) : Except VSError Record :=
  match s.records.find? (fun r => r.id == id) with
  | some r => Except.ok r
  | none => Except.error VSError.notFound

/-- Modelled from the spec: `remove(id)` fails with `NotFound` if absent,
succeeds otherwise (§4.1). -/
def Store.remove (s : Store) (id : Nat) : Except VSError Store :=
  if s.records.any (fun r => r.id == id) then
    Except.ok { s with records := s.records.filter (fun r => r.id != id) }
  else
    Except.error VSError.notFound

/-- Inner product of two rational vectors (componentwise product, summed). -/
def dotQ (u v : List ℚ) : ℚ := (List.zipWith (· * ·) u v).sum

/-- Modelled from the spec: the immutable IndexHandle produced by `build`,
a snapshot of the store's dimension and records (§4.2). -/
structure IndexHandle where
  dim : Nat
  records : List Record
deriving DecidableEq

/-- Modelled from the spec: `build(store_snapshot) -> IndexHandle` consumes
the store's current records and returns an immutable handle (§4.2, flat
exact search as the reference behavior). -/
def Index.build (s : Store) : IndexHandle := ⟨s.dim, s.records⟩

/-- Modelled from the spec: `handle.size()`, the number of indexed
records (§4.2). -/
def IndexHandle.size (h : IndexHandle) : Nat := h.records.length

/-- Modelled from the spec: the result ordering of `search` — descending by
score, ties broken by ascending identifier (§4.2).  `rankLe a b` holds when
`a` may appear no later than `b`. -/
def rankLe (a b : Nat × ℚ) : Prop := b.2 < a.2 ∨ (a.2 = b.2 ∧ a.1 ≤ b.1)

instance : DecidableRel rankLe := fun a b =>
  inferInstanceAs (Decidable (b.2 < a.2 ∨ (a.2 = b.2 ∧ a.1 ≤ b.1)))

instance : IsTotal (Nat × ℚ) rankLe where
  total a b := by
    rcases lt_trichotomy a.2 b.2 with h | h | h
    · exact Or.inr (Or.inl h)
    · rcases Nat.le_total a.1 b.1 with h1 | h1
      · exact Or.inl (Or.inr ⟨h, h1⟩)
      · exact Or.inr (Or.inr ⟨h.symm, h1⟩)
    · exact Or.inl (Or.inl h)

instance : IsTrans (Nat × ℚ) rankLe where
  trans a b c hab hbc := by
    rcases hab with h1 | ⟨e1, i1⟩
    · rcases hbc with h2 | ⟨e2, i2⟩
      · exact Or.inl (lt_trans h2 h1)
      · exact Or.inl (e2 ▸ h1)
    · rcases hbc with h2 | ⟨e2, i2⟩
      · exact Or.inl (e1 ▸ h2)
      · exact Or.inr ⟨e1.trans e2, le_trans i1 i2⟩

/-- Scored candidates: each stored record paired with the inner product of
the query against its embedding. -/
def scoreList (q : List ℚ) (rs : List Record) : List (Nat × ℚ) :=
  rs.map (fun r => (r.id, dotQ q r.emb))

/-- Modelled from the spec: `search(handle, query_embedding, k)` — fails
with `DimensionMismatch` if `len(query_embedding) != D` and with
`EmptyIndex` if the handle was built over zero records (checks in the order
the §4.2 contract lists them); otherwise returns the scored records sorted
descending by score with ties broken by ascending identifier, truncated to
`k` results. -/
def IndexHandle.search (h : IndexHandle) (q : List ℚ) (k : Nat) :
    Except VSError (List (Nat × ℚ)) :=
  if q.length = h.dim then
    if h.records.isEmpty then
      Except.error VSError.emptyIndex
    else
      Except.ok ((List.insertionSort rankLe (scoreList q h.records)).take k)
  else
    Except.error VSError.dimensionMismatch

/-- Modelled from the spec: the Query Façade's k-bounding rule — a requested
k outside `[1, store.size()]` is clamped to the nearest bound (§4.3). -/
def clampK (k : Int) (n : Nat) : Nat := (min (max k 1) (n : Int)).toNat

/-- Modelled from the spec: `search_similar(store, query_embedding, k)`,
the Query Façade — builds an index over the store and dispatches the query
with k clamped to `[1, store.size()]` (§4.3; the store's vectors are taken
as pre-normalized, so no query rescaling is applied here). -/
def search_similar (s : Store) (q : List ℚ) (k : Int) :
    Except VSError (List (Nat × ℚ)) :=
  (Index.build s).search q (clampK k s.size)

/-- The concrete store of the spec's §8 example: records
`{(1,[1,0]), (2,[0,1]), (3,[1,1])}` with dimension 2. -/
def exampleStore : Store :=
  ⟨2, [⟨1, [1, 0], ""⟩, ⟨2, [0, 1], ""⟩, ⟨3, [1, 1], ""⟩]⟩

example : IndexHandle.search (Index.build exampleStore) [1, 0] 2 =
    Except.ok [(1, 1), (3, 1)] := by
  norm_num [IndexHandle.search, Index.build, exampleStore, scoreList, dotQ,
    List.insertionSort, List.orderedInsert, rankLe]

example : Store.insert exampleStore 1 [5, 5] "x" =
    Except.error VSError.duplicateId := by
  norm_num [Store.insert, exampleStore]

/-!
Query normalization, embedded from the notebook code
`query_feat = query_feat / query_feat.norm()` (Notebook 6) and
`image_features = image_features / image_features.norm(p=2, dim=-1, ...)`
(Notebook 5).  Vector components are modelled as real numbers; the
Euclidean norm is the square root of the sum of squares, and the division
is applied componentwise with no zero-norm guard, exactly as in the source.
-/

/-- Sum of squared components of a real vector. -/
noncomputable def sumSq (v : List ℝ) : ℝ := (v.map (fun x => x * x)).sum

/-- Euclidean (L2) norm of a real vector, as computed by `tensor.norm()`. -/
noncomputable def l2norm (v : List ℝ) : ℝ := Real.sqrt (sumSq v)

/-- Componentwise division of a vector by its own Euclidean norm, exactly
the notebooks' `v / v.norm()`; there is no guard against a zero norm. -/
noncomputable def l2normalize (v : List ℝ) : List ℝ :=
  v.map (fun x => x / l2norm v)

/-- Inner product of two real vectors, the notebooks'
`image_features @ text_features.T` entry. -/
noncomputable def dotR (u w : List ℝ) : ℝ := (List.zipWith (· * ·) u w).sum

/-- The all-zero vector of dimension d. -/
def zeroVec (d : Nat) : List ℝ := List.replicate d 0

/-!
Fine-tuning loop of Notebook 6, embedded with parameters indexed by
natural numbers.  The source freezes the CLIP image encoder
(`param.requires_grad = False` for every encoder parameter) and builds the
optimizer over the classifier head only
(`torch.optim.Adam(classifier.parameters())`); each batch runs
`optimizer.zero_grad(); loss.backward(); optimizer.step()`, and
`optimizer.step` writes only to the parameters handed to the optimizer.
The gradient function and the per-parameter update rule (Adam) are kept
abstract, since the frame property does not depend on their values.
-/

/-- Training configuration mirroring Notebook 6: the encoder's parameter
indices (frozen), the classifier head's parameter indices (handed to the
optimizer), the learning rate, an abstract gradient function
(current params, batch, param index) and an abstract per-parameter update
rule (learning rate, current value, gradient). -/
structure TrainConfig where
  encoderIds : List Nat
  headIds : List Nat
  lr : ℚ
  gradFn : (Nat → ℚ) → Nat → Nat → ℚ
  updateFn : ℚ → ℚ → ℚ → ℚ

/-- Gradient-tracking flag after the freezing loop
`for param in image_encoder.parameters(): param.requires_grad = False`:
false on every encoder parameter, true elsewhere. -/
def requiresGrad (cfg : TrainConfig) (i : Nat) : Bool :=
  if i ∈ cfg.encoderIds then false else true

/-- Gradient produced by `loss.backward()`: zero wherever gradient tracking
is disabled, the abstract gradient elsewhere. -/
def backwardGrad (cfg : TrainConfig) (th : Nat → ℚ) (b : Nat) (i : Nat) : ℚ :=
  if requiresGrad cfg i then cfg.gradFn th b i else 0

/-- One `optimizer.step()`: updates exactly the parameters in the
optimizer's parameter set (the classifier head's indices, per
`Adam(classifier.parameters())`); every other parameter is left as is. -/
def optimStep (cfg : TrainConfig) (th : Nat → ℚ) (b : Nat) : Nat → ℚ :=
  fun i => if i ∈ cfg.headIds then cfg.updateFn cfg.lr (th i) (backwardGrad cfg th b i) else th i

/-- One epoch: `for images, labels in train_loader: ... optimizer.step()`,
a fold of optimizer steps over the batch list. -/
def runEpoch (cfg : TrainConfig) (batches : List Nat) (th : Nat → ℚ) : Nat → ℚ :=
  batches.foldl (fun acc b => optimStep cfg acc b) th

/-- The outer loop `for epoch in range(epochs)`. -/
def trainLoop (cfg : TrainConfig) : Nat → List Nat → (Nat → ℚ) → (Nat → ℚ)
  | 0, _, th => th
  | n + 1, batches, th => trainLoop cfg n batches (runEpoch cfg batches th)

/-!
Helper lemmas about `search`.
-/

/-- On a nonempty handle and a query of matching dimension, `search` returns
the sorted scored records truncated to k. -/
lemma search_eq_ok (h : IndexHandle) (q : List ℚ) (k : Nat)
    (hne : h.records ≠ []) (hd : q.length = h.dim) :
    h.search q k =
      Except.ok ((List.insertionSort rankLe (scoreList q h.records)).take k) := by
  unfold IndexHandle.search
  rw [if_pos hd, if_neg]
  simp [List.isEmpty_iff, hne]

/-- The scored-candidate list has one entry per record. -/
lemma scoreList_length (q : List ℚ) (rs : List Record) :
    (scoreList q rs).length = rs.length :=
  List.length_map rs _

/-- Full functional characterization of a successful `search`: it returns
`min k size` results, every result is a stored record's id paired with the
inner product of the query against that record's embedding, and the results
are sorted descending by score with ties broken by ascending id. -/
lemma search_spec (h : IndexHandle) (q : List ℚ) (k : Nat)
    (hne : h.records ≠ []) (hd : q.length = h.dim) :
    ∃ res, h.search q k = Except.ok res ∧
      res.length = min k h.size ∧
      (∀ p ∈ res, ∃ r ∈ h.records, p.1 = r.id ∧ p.2 = dotQ q r.emb) ∧
      List.Sorted rankLe res ∧
      (∃ all, all.Perm (scoreList q h.records) ∧ List.Sorted rankLe all ∧
        res = all.take k) := by
  refine ⟨_, search_eq_ok h q k hne hd, ?_, ?_, ?_,
    ⟨_, List.perm_insertionSort rankLe _, List.sorted_insertionSort rankLe _,
      rfl⟩⟩
  · rw [List.length_take, (List.perm_insertionSort rankLe _).length_eq,
      scoreList_length]
    rfl
  · intro p hp
    have hp1 : p ∈ List.insertionSort rankLe (scoreList q h.records) :=
      List.mem_of_mem_take hp
    have hp2 : p ∈ scoreList q h.records :=
      (List.perm_insertionSort rankLe _).mem_iff.mp hp1
    rcases List.mem_map.mp hp2 with ⟨r, hr, hpr⟩
    exact ⟨r, hr, by rw [← hpr], by rw [← hpr]⟩
  · exact List.Pairwise.sublist (List.take_sublist _ _)
      (List.sorted_insertionSort rankLe _)

/-- Claim C1: on an index built over a nonempty record set, a query of the
store's dimension, and any k ≥ 1, `search` succeeds and returns exactly
`min k size` (id, score) pairs, each score being the inner product of the
query with the corresponding stored embedding, sorted descending by score
with equal scores ordered by ascending identifier, and the results are the
first min(k, size) entries of the full sorted candidate list (true top-k);
in particular, on the records {(1,[1,0]), (2,[0,1]), (3,[1,1])} with query
[1,0] and k = 2 the result is exactly [(1, 1), (3, 1)]. -/
theorem search_topk_contract :
    (∀ (h : IndexHandle) (q : List ℚ) (k : Nat),
        h.records ≠ [] → q.length = h.dim → 1 ≤ k →
        ∃ res, h.search q k = Except.ok res ∧
          res.length = min k h.size ∧
          (∀ p ∈ res, ∃ r ∈ h.records, p.1 = r.id ∧ p.2 = dotQ q r.emb) ∧
          List.Sorted rankLe res ∧
          (∃ all, all.Perm (scoreList q h.records) ∧ List.Sorted rankLe all ∧
            res = all.take k)) ∧
    IndexHandle.search (Index.build exampleStore) [1, 0] 2 =
      Except.ok [(1, 1), (3, 1)] := by
  constructor
  · intro h q k hne hd _
    exact search_spec h q k hne hd
  · norm_num [IndexHandle.search, Index.build, exampleStore, scoreList, dotQ,
      List.insertionSort, List.orderedInsert, rankLe]

/-- Witness for C1 at the handle built over the spec's example records,
query [1,0] and k = 2. -/
theorem search_topk_contract_witness :
    ∃ res, (Index.build exampleStore).search [1, 0] 2 = Except.ok res ∧
      res.length = min 2 (Index.build exampleStore).size ∧
      (∀ p ∈ res, ∃ r ∈ (Index.build exampleStore).records,
        p.1 = r.id ∧ p.2 = dotQ [1, 0] r.emb) ∧
      List.Sorted rankLe res ∧
      (∃ all, all.Perm (scoreList [1, 0] (Index.build exampleStore).records) ∧
        List.Sorted rankLe all ∧ res = all.take 2) :=
  search_topk_contract.1 (Index.build exampleStore) [1, 0] 2
    (by simp [Index.build, exampleStore]) (by simp [Index.build, exampleStore])
    (by norm_num)

/-- Claim C2: on an index over n ≥ 1 records, a request of k > n returns
exactly n results — no padding and no error. -/
theorem search_k_exceeds_size :
    ∀ (h : IndexHandle) (q : List ℚ) (k : Nat),
      h.records ≠ [] → q.length = h.dim → h.size < k →
      ∃ res, h.search q k = Except.ok res ∧ res.length = h.size := by
  intro h q k hne hd hk
  obtain ⟨res, hok, hlen, -, -, -⟩ := search_spec h q k hne hd
  exact ⟨res, hok, by omega⟩

/-- Witness for C2 at the example store with k = 5 > 3 records. -/
theorem search_k_exceeds_size_witness :
    ∃ res, (Index.build exampleStore).search [1, 0] 5 = Except.ok res ∧
      res.length = (Index.build exampleStore).size :=
  search_k_exceeds_size (Index.build exampleStore) [1, 0] 5
    (by simp [Index.build, exampleStore]) (by simp [Index.build, exampleStore])
    (by simp [Index.build, IndexHandle.size, exampleStore])

/-- Counterexample to C3 as stated: on an index built over zero records, a
query whose length differs from the store dimension fails with
`DimensionMismatch`, not `EmptyIndex` (the dimension check of §4.2 is
listed, and hence performed, first). -/
theorem search_empty_wrong_dim_cex :
    IndexHandle.search (Index.build (Store.mk 2 [])) [1] 1 =
      Except.error VSError.dimensionMismatch ∧
    IndexHandle.search (Index.build (Store.mk 2 [])) [1] 1 ≠
      Except.error VSError.emptyIndex := by
  constructor
  · norm_num [IndexHandle.search, Index.build]
  · norm_num [IndexHandle.search, Index.build]
    decide

/-- Claim C3 (amended): for every query embedding of the store's dimension
and every k, search against an index built over zero records fails with
`EmptyIndex`. -/
theorem search_empty_index :
    ∀ (s : Store) (q : List ℚ) (k : Nat), s.records = [] → q.length = s.dim →
      (Index.build s).search q k = Except.error VSError.emptyIndex := by
  intro s q k hrec hd
  simp [IndexHandle.search, Index.build, hrec, hd]

/-- Witness for C3 (amended) at an empty store of dimension 2. -/
theorem search_empty_index_witness :
    (Index.build (Store.mk 2 [])).search [0, 0] 4 =
      Except.error VSError.emptyIndex :=
  search_empty_index (Store.mk 2 []) [0, 0] 4 rfl (by simp)

/-- Claim C4: a mismatched dimension is always rejected with
`DimensionMismatch` — on insert (before the store is touched; the model's
failing insert returns no store at all) and on search (before any score is
computed), regardless of the rest of the input. -/
theorem dimension_mismatch_rejected :
    (∀ (s : Store) (id : Nat) (e : List ℚ) (m : String), e.length ≠ s.dim →
        Store.insert s id e m = Except.error VSError.dimensionMismatch) ∧
    (∀ (h : IndexHandle) (q : List ℚ) (k : Nat), q.length ≠ h.dim →
        h.search q k = Except.error VSError.dimensionMismatch) := by
  constructor
  · intro s id e m hne
    unfold Store.insert
    rw [if_neg hne]
  · intro h q k hne
    unfold IndexHandle.search
    rw [if_neg hne]

/-- Witness for C4: inserting a 1-dimensional vector into the
2-dimensional example store and searching it with a 1-dimensional query
both fail with `DimensionMismatch`. -/
theorem dimension_mismatch_rejected_witness :
    Store.insert exampleStore 7 [1] "x" =
      Except.error VSError.dimensionMismatch ∧
    (Index.build exampleStore).search [1] 2 =
      Except.error VSError.dimensionMismatch :=
  ⟨dimension_mismatch_rejected.1 exampleStore 7 [1] "x" (by simp [exampleStore]),
   dimension_mismatch_rejected.2 (Index.build exampleStore) [1] 2
     (by simp [Index.build, exampleStore])⟩

/-- Counterexample to C5 as stated: inserting an already-present id with a
vector of the wrong dimension fails with `DimensionMismatch`, not
`DuplicateId` (the §4.1 contract lists, and hence performs, the dimension
check first); the store, being a value, is untouched in either case. -/
theorem insert_duplicate_wrong_dim_cex :
    (⟨1, [1, 0], ""⟩ : Record) ∈ exampleStore.records ∧
    Store.insert exampleStore 1 [5] "x" =
      Except.error VSError.dimensionMismatch ∧
    Store.insert exampleStore 1 [5] "x" ≠
      Except.error VSError.duplicateId := by
  refine ⟨by simp [exampleStore], ?_, ?_⟩
  · norm_num [Store.insert, exampleStore]
  · norm_num [Store.insert, exampleStore]
    decide

/-- Claim C5 (amended): inserting an embedding of the store's dimension
under an id already present always fails with `DuplicateId`, and the failed
insert produces no new store — the prior store value, its size and every
record in it are untouched (insert is atomic with respect to its error
conditions). -/
theorem insert_duplicate_id :
    ∀ (s : Store) (id : Nat) (e : List ℚ) (m : String),
      e.length = s.dim → (∃ r ∈ s.records, r.id = id) →
      Store.insert s id e m = Except.error VSError.duplicateId := by
  intro s id e m hd hdup
  rcases hdup with ⟨r, hr, hid⟩
  unfold Store.insert
  rw [if_pos hd, if_pos]
  exact List.any_eq_true.mpr ⟨r, hr, by simp [hid]⟩

/-- Witness for C5 (amended): re-inserting id 1 with a well-dimensioned
vector into the example store fails with `DuplicateId`. -/
theorem insert_duplicate_id_witness :
    Store.insert exampleStore 1 [5, 5] "x" =
      Except.error VSError.duplicateId :=
  insert_duplicate_id exampleStore 1 [5, 5] "x" (by simp [exampleStore])
    ⟨⟨1, [1, 0], ""⟩, by simp [exampleStore], rfl⟩

/-- Claim C6: index building is idempotent and deterministic — two builds
from the same store snapshot answer any fixed query with identical ordered
result sequences. -/
theorem build_deterministic :
    ∀ (s₁ s₂ : Store) (q : List ℚ) (k : Nat), s₁ = s₂ →
      (Index.build s₁).search q k = (Index.build s₂).search q k := by
  intro s₁ s₂ q k h
  rw [h]

/-- Witness for C6 at the example store. -/
theorem build_deterministic_witness :
    (Index.build exampleStore).search [1, 0] 2 =
      (Index.build exampleStore).search [1, 0] 2 :=
  build_deterministic exampleStore exampleStore [1, 0] 2 rfl

/-- Claim C7: the Query Façade clamps the requested k to
`[1, store.size()]` — any out-of-range k (k < 1 or k > size) is moved to
the nearest bound and the query succeeds, never erroring on account of k. -/
theorem search_similar_clamps_k :
    ∀ (s : Store) (q : List ℚ) (k : Int), 1 ≤ s.size → q.length = s.dim →
      ∃ res, search_similar s q k = Except.ok res ∧
        res.length = clampK k s.size ∧
        1 ≤ res.length ∧ res.length ≤ s.size ∧
        (k < 1 → res.length = 1) ∧
        ((s.size : Int) < k → res.length = s.size) ∧
        (1 ≤ k → k ≤ (s.size : Int) → (res.length : Int) = k) := by
  intro s q k hsize hd
  have hne : (Index.build s).records ≠ [] := by
    intro hcon
    unfold Store.size at hsize
    unfold Index.build at hcon
    simp only at hcon
    rw [hcon] at hsize
    simp at hsize
  obtain ⟨res, hok, hlen, -, -, -⟩ :=
    search_spec (Index.build s) q (clampK k s.size) hne hd
  have hsz : (Index.build s).size = s.size := rfl
  rw [hsz] at hlen
  have hcl : clampK k s.size ≤ s.size ∧ 1 ≤ clampK k s.size ∧
      (k < 1 → clampK k s.size = 1) ∧
      ((s.size : Int) < k → clampK k s.size = s.size) ∧
      (1 ≤ k → k ≤ (s.size : Int) → (clampK k s.size : Int) = k) := by
    unfold clampK
    omega
  exact ⟨res, hok, by omega, by omega, by omega,
    fun h1 => by have := hcl.2.2.1 h1; omega,
    fun h1 => by have := hcl.2.2.2.1 h1; omega,
    fun h1 h2 => by have := hcl.2.2.2.2 h1 h2; omega⟩

/-- Witness for C7 at the example store with the out-of-range requests
k = -3 (clamped to 1) and implicit in-range behavior. -/
theorem search_similar_clamps_k_witness :
    ∃ res, search_similar exampleStore [1, 0] (-3) = Except.ok res ∧
      res.length = clampK (-3) exampleStore.size ∧
      1 ≤ res.length ∧ res.length ≤ exampleStore.size ∧
      ((-3 : Int) < 1 → res.length = 1) ∧
      ((exampleStore.size : Int) < -3 → res.length = exampleStore.size) ∧
      (1 ≤ (-3 : Int) → (-3 : Int) ≤ (exampleStore.size : Int) →
        (res.length : Int) = -3) :=
  search_similar_clamps_k exampleStore [1, 0] (-3)
    (by simp [Store.size, exampleStore]) (by simp [exampleStore])

/-- Claim C8: storage round-trip is exact — after a valid insert (fresh id,
dimension D), `get` returns precisely the inserted embedding and metadata,
with components equal (the model's rationals are exact) and in their
original order. -/
theorem insert_get_roundtrip :
    ∀ (s : Store) (id : Nat) (e : List ℚ) (m : String),
      e.length = s.dim → (∀ r ∈ s.records, r.id ≠ id) →
      ∃ s', Store.insert s id e m = Except.ok s' ∧
        Store.get s' id = Except.ok ⟨id, e, m⟩ := by
  intro s id e m hd hfresh
  have hany : s.records.any (fun r => r.id == id) = false := by
    rw [List.any_eq_false]
    intro r hr
    simpa using hfresh r hr
  refine ⟨{ s with records := s.records ++ [⟨id, e, m⟩] }, ?_, ?_⟩
  · unfold Store.insert
    rw [if_pos hd, hany]
    rfl
  · unfold Store.get
    simp only
    rw [List.find?_append]
    have h1 : s.records.find? (fun r => r.id == id) = none := by
      rw [List.find?_eq_none]
      intro r hr
      simpa using hfresh r hr
    rw [h1]
    simp [List.find?]

/-- Witness for C8: inserting a fresh record (id 9) into the example store
and reading it back returns the embedding and metadata unchanged. -/
theorem insert_get_roundtrip_witness :
    ∃ s', Store.insert exampleStore 9 [2, 7] "cap" = Except.ok s' ∧
      Store.get s' 9 = Except.ok ⟨9, [2, 7], "cap"⟩ :=
  insert_get_roundtrip exampleStore 9 [2, 7] "cap" (by simp [exampleStore])
    (by simp [exampleStore])

/-!
Lemmas about the notebooks' L2 normalization.
-/

/-- Sums of squares are nonnegative. -/
lemma sumSq_nonneg (v : List ℝ) : 0 ≤ sumSq v := by
  apply List.sum_nonneg
  intro x hx
  rcases List.mem_map.mp hx with ⟨y, -, rfl⟩
  exact mul_self_nonneg y

/-- Unfolding of `sumSq` on a cons cell. -/
lemma sumSq_cons (a : ℝ) (v : List ℝ) : sumSq (a :: v) = a * a + sumSq v := by
  simp [sumSq]

/-- Dividing every component by c divides the sum of squares by c². -/
lemma sumSq_map_div (v : List ℝ) (c : ℝ) :
    sumSq (v.map (fun x => x / c)) = sumSq v / (c * c) := by
  induction v with
  | nil => simp [sumSq]
  | cons a v ih =>
    simp only [List.map_cons, sumSq_cons, ih]
    rw [div_mul_div_comm, div_add_div_same]

/-- The squared Euclidean norm is the sum of squares. -/
lemma l2norm_sq (v : List ℝ) : l2norm v * l2norm v = sumSq v := by
  unfold l2norm
  exact Real.mul_self_sqrt (sumSq_nonneg v)

/-- Cauchy–Schwarz for the componentwise inner product of lists. -/
lemma dotR_sq_le (u w : List ℝ) : dotR u w * dotR u w ≤ sumSq u * sumSq w := by
  induction u generalizing w with
  | nil => simp [dotR, sumSq]
  | cons a u ih =>
    cases w with
    | nil => simp [dotR, sumSq]
    | cons b w =>
      have h1 := ih w
      have h2 := sumSq_nonneg u
      have h3 := sumSq_nonneg w
      rw [show dotR (a :: u) (b :: w) = a * b + dotR u w from by simp [dotR],
        sumSq_cons, sumSq_cons]
      set d := dotR u w
      set su := sumSq u
      set sv := sumSq w
      clear_value d su sv
      have h4 : 0 ≤ su * sv - d * d := by linarith
      rcases eq_or_lt_of_le h2 with hsu | hsu
      · have hsu' : su = 0 := hsu.symm
        have hdd : d * d ≤ 0 := by
          rw [hsu', zero_mul] at h1
          linarith
        have hd0 : d = 0 :=
          mul_self_eq_zero.mp (le_antisymm hdd (mul_self_nonneg d))
        rw [hd0, hsu']
        nlinarith [mul_nonneg (mul_self_nonneg a) h3]
      · nlinarith [sq_nonneg (a * d - b * su), mul_nonneg (le_of_lt hsu) h4,
          mul_nonneg (mul_self_nonneg a) h4, hsu]

/-- Claim C9: the notebooks' normalization divides by the vector's own
Euclidean norm with no zero-norm guard; whenever the sum of squares is
nonzero the normalized vector has unit (squared) norm, the inner product of
any two unit-norm vectors lies in [-1, 1], and on the all-zero vector the
divisor used by the normalization is exactly 0 — the division-by-zero
branch is reached. -/
theorem normalization_contract :
    (∀ v : List ℝ, sumSq v ≠ 0 → sumSq (l2normalize v) = 1) ∧
    (∀ u w : List ℝ, sumSq u = 1 → sumSq w = 1 →
      -1 ≤ dotR u w ∧ dotR u w ≤ 1) ∧
    (∀ d : Nat, l2norm (zeroVec d) = 0) := by
  refine ⟨?_, ?_, ?_⟩
  · intro v h
    unfold l2normalize
    rw [sumSq_map_div, l2norm_sq, div_self h]
  · intro u w hu hw
    have h := dotR_sq_le u w
    rw [hu, hw] at h
    constructor <;> nlinarith [h]
  · intro d
    have hz : sumSq (zeroVec d) = 0 := by
      unfold zeroVec
      induction d with
      | zero => simp [sumSq]
      | succ n ih =>
        rw [List.replicate_succ, sumSq_cons, ih]
        ring
    rw [l2norm, hz, Real.sqrt_zero]

/-- Witness for C9: the vector [3, 4] has nonzero sum of squares and
normalizes to unit norm, and the unit vectors [1, 0] and [0, 1] have an
inner product inside [-1, 1]. -/
theorem normalization_contract_witness :
    sumSq [(3 : ℝ), 4] ≠ 0 ∧ sumSq (l2normalize [(3 : ℝ), 4]) = 1 ∧
    (-1 ≤ dotR [(1 : ℝ), 0] [(0 : ℝ), 1] ∧
      dotR [(1 : ℝ), 0] [(0 : ℝ), 1] ≤ 1) := by
  have h1 : sumSq [(3 : ℝ), 4] ≠ 0 := by norm_num [sumSq]
  have h2 : sumSq [(1 : ℝ), 0] = 1 := by norm_num [sumSq]
  have h3 : sumSq [(0 : ℝ), 1] = 1 := by norm_num [sumSq]
  exact ⟨h1, normalization_contract.1 _ h1,
    normalization_contract.2.1 _ _ h2 h3⟩

/-!
Frame lemmas for the fine-tuning loop.
-/

/-- A single optimizer step leaves every parameter outside the optimizer's
parameter set untouched. -/
lemma optimStep_frame (cfg : TrainConfig) (th : Nat → ℚ) (b : Nat) (i : Nat)
    (hi : i ∉ cfg.headIds) : optimStep cfg th b i = th i := by
  unfold optimStep
  rw [if_neg hi]

/-- A whole epoch leaves every parameter outside the optimizer's parameter
set untouched. -/
lemma runEpoch_frame (cfg : TrainConfig) (batches : List Nat) (th : Nat → ℚ)
    (i : Nat) (hi : i ∉ cfg.headIds) : runEpoch cfg batches th i = th i := by
  induction batches generalizing th with
  | nil => rfl
  | cons b bs ih =>
    show runEpoch cfg bs (optimStep cfg th b) i = th i
    rw [ih (optimStep cfg th b)]
    exact optimStep_frame cfg th b i hi

/-- Claim C10: the fine-tuning loop leaves the frozen encoder unchanged —
every parameter outside the optimizer's parameter set (in particular every
parameter of the frozen CLIP image encoder, which is not handed to the
optimizer) is exactly equal to its pre-training value after any number of
epochs over any batches, and every encoder parameter has gradient tracking
disabled; only the classifier head's parameters can be modified. -/
theorem frozen_encoder_unchanged :
    ∀ (cfg : TrainConfig) (i : Nat), i ∉ cfg.headIds →
      (∀ (epochs : Nat) (batches : List Nat) (th : Nat → ℚ),
        trainLoop cfg epochs batches th i = th i) ∧
      (i ∈ cfg.encoderIds → requiresGrad cfg i = false) := by
  intro cfg i hi
  constructor
  · intro epochs
    induction epochs with
    | zero => intro batches th; rfl
    | succ n ih =>
      intro batches th
      rw [trainLoop, ih batches (runEpoch cfg batches th)]
      exact runEpoch_frame cfg batches th i hi
  · intro he
    unfold requiresGrad
    rw [if_pos he]

/-- Concrete configuration for the C10 witness: encoder parameters 0 and 1
(frozen), classifier head parameter 2 (optimized), SGD-shaped update. -/
def cfgW : TrainConfig :=
  ⟨[0, 1], [2], 1, fun _ _ _ => 1, fun lr v g => v - lr * g⟩

/-- Witness for C10: after two epochs over two batches, encoder parameter 0
still has its initial value 5, and its gradient tracking is off. -/
theorem frozen_encoder_unchanged_witness :
    trainLoop cfgW 2 [0, 1] (fun _ => 5) 0 = 5 ∧
      requiresGrad cfgW 0 = false := by
  have h := frozen_encoder_unchanged cfgW 0 (by decide)
  exact ⟨h.1 2 [0, 1] (fun _ => 5), h.2 (by decide)⟩
